import Mathlib

/-!
Verification of the nuska HTTP dispatch core (`src/server.ts`).

The development shallowly embeds the dispatch core: the response builder
(`createResponse` / `createErrorResponse`), the route table lookup
(`findRoute` / `pathMatches`), the continuation-passing middleware chain
executor (`executeMiddlewareChain`), the top-level error sweep
(`handleError`) and the dispatcher entry point (`processRequest`), together
with the server facade state (`Server.use`, `Server.route`, `Server.start`).

JavaScript mutation is modelled by explicit state passing; `throw` is
modelled by an error-carrying result; `await`-driven continuation passing is
modelled by a fuel-indexed step function whose continuation argument is
handed to the (arbitrary) middleware hooks.  Hooks and handlers are
arbitrary Lean functions over the threaded state, so theorems quantifying
over them cover every behaviour of user middleware, including throwing.
-/

namespace Nuska

/-- Errors are the messages of the `Error` values the source throws; hooks
may throw arbitrary values, represented by arbitrary strings. -/
abbrev ErrorMsg := String

/-- JSON-like body values: what `send`/`json` store in the response body.
`obj` models a plain JavaScript object literal such as
`\x7b error: "Not Found" \x7d`. -/
inductive JsValue where
  | str (s : String)
  | num (n : Int)
  | obj (fields : List (String × JsValue))

/-- The nine HTTP verbs of the `HttpMethod` union in `IRequest.ts`. -/
inductive Method where
  | GET | POST | PUT | PATCH | DELETE | HEAD | OPTIONS | TRACE | CONNECT
deriving DecidableEq

/-- Neutral request (the fields of `IRequest` the dispatch core reads or
forwards; `url`, `query`, `params` and the optional metadata play no role
in dispatch and are elided). -/
structure Request where
  method : Method
  path : String
  headers : List (String × String) := []
  body : Option JsValue := none
  protocol : String := ""

/-- JavaScript object-key assignment `headers[name] = value`: overwrite the
existing entry in place, else append. -/
def setHeaderMap : List (String × String) → String → String → List (String × String)
  | [], name, value => [(name, value)]
  | (k, w) :: rest, name, value =>
    if k = name then (k, value) :: rest
    else (k, w) :: setHeaderMap rest name value

/-- The closure state of the object returned by `Server.createResponse`:
`status?` is the private `status` variable (`undefined` until set),
`headers` the private header map, `body` the private body slot, and
`sent` / `finished` the two booleans. -/
structure Response where
  status? : Option Nat
  headers : List (String × String)
  body : Option JsValue
  sent : Bool
  finished : Bool

/-- Embedding of `Server.createResponse`: the fresh response closure state. -/
def createResponse : Response :=
  { status? := none, headers := [], body := none, sent := false, finished := false }

/-- The `status` getter: `return status ?? 200`. -/
def Response.status (r : Response) : Nat :=
  r.status?.getD 200

/-- Embedding of `setStatus(code)`: throws if already sent, else records the code. -/
def Response.setStatus (r : Response) (code : Nat) : Except ErrorMsg Response :=
  if r.sent then Except.error "Cannot set status after response has been sent"
  else Except.ok { r with status? := some code }

/-- Embedding of `setHeader(name, value)`: throws if already sent, else assigns the
header entry (last write wins per key). -/
def Response.setHeader (r : Response) (name value : String) : Except ErrorMsg Response :=
  if r.sent then Except.error "Cannot set headers after response has been sent"
  else Except.ok { r with headers := setHeaderMap r.headers name value }

/-- Embedding of `send(data?)`: throws if already sent; defaults the status to 200 when
none was set; stores the body and marks `sent` and `finished`. -/
def Response.send (r : Response) (data : Option JsValue) : Except ErrorMsg Response :=
  if r.sent then Except.error "Response has already been sent"
  else Except.ok { r with
    status? := some (r.status?.getD 200)
    body := data
    sent := true
    finished := true }

/-- Embedding of `json(data)`: sets `content-type: application/json` via `setHeader`
(throwing there if already sent), then delegates to `send(data)`. -/
def Response.json (r : Response) (data : JsValue) : Except ErrorMsg Response :=
  match r.setHeader "content-type" "application/json" with
  | Except.error e => Except.error e
  | Except.ok r' => r'.send (some data)

/-- Embedding of `Server.createErrorResponse(status, message)`: fresh response, then
`setStatus(status)` then `json(\x7b error: message \x7d)`. -/
def createErrorResponse (status : Nat) (message : String) : Except ErrorMsg Response := do
  let r ← createResponse.setStatus status
  r.json (JsValue.obj [("error", JsValue.str message)])

/-- The 404 fallback response the dispatcher builds for unmatched routes. -/
def notFoundResponse : Response :=
  { status? := some 404
    headers := [("content-type", "application/json")]
    body := some (JsValue.obj [("error", JsValue.str "Not Found")])
    sent := true
    finished := true }

/-- The 500 fallback response for errors no `onError` hook recovered. -/
def internalErrorResponse : Response :=
  { status? := some 500
    headers := [("content-type", "application/json")]
    body := some (JsValue.obj [("error", JsValue.str "Internal Server Error")])
    sent := true
    finished := true }

/-! ## Middleware chain executor -/

/-- Result of an asynchronous computation: it settles with a value (`ok`),
rejects with a thrown error and the mutable state as the throw left it
(`err`), or never settles within the fuel bound (`dv`). -/
inductive Res (σ : Type) (α : Type) where
  | ok (a : α)
  | err (e : ErrorMsg) (s : σ)
  | dv

/-- The state threaded through one chain execution: the response object the
hooks mutate, the shared `index` cursor of `executeMiddlewareChain`, and an
extension component `σ` (middleware-private state, e.g. an event trace). -/
structure CState (σ : Type) where
  resp : Response
  index : Nat
  ext : σ

/-- The type of the `next` continuation handed to middleware hooks. -/
def Cont (σ : Type) : Type :=
  CState σ → Res (CState σ) (CState σ)

/-- A middleware (`IMiddleware`): three optional hooks.  Each hook is an
arbitrary function of the request, the `next` continuation and the threaded
state, so quantifying over middleware covers every behaviour, including
throwing, ignoring `next`, or calling it repeatedly. -/
structure Middleware (σ : Type) where
  before : Option (Request → Cont σ → Cont σ) := none
  after : Option (Request → Cont σ → Cont σ) := none
  onError : Option (ErrorMsg → Request → Cont σ → Cont σ) := none

/-- A route handler: receives the request and operates on the threaded
state (mutating the response, possibly throwing or never settling). -/
def Handler (σ : Type) : Type :=
  Request → CState σ → Res (CState σ) (CState σ)

/-- A registered route (`IRoute`): the dispatch core reads `method`,
`path`, `handler` and the optional `middlewares` list. -/
structure Route (σ : Type) where
  method : Method
  path : String
  handler : Handler σ
  middlewares : Option (List (Middleware σ)) := none
  description : Option String := none
  tags : Option (List String) := none

/-- Embedding of `Server.pathMatches`: basic exact match. -/
def pathMatches (routePath requestPath : String) : Bool :=
  routePath == requestPath

/-- Embedding of `Server.findRoute`: first registered route with strictly equal method
and exactly matching path. -/
def findRoute {σ : Type} (routes : List (Route σ)) (method : Method) (path : String) :
    Option (Route σ) :=
  routes.find? fun route => decide (route.method = method) && pathMatches route.path path

/-- The `next` closure of `executeMiddlewareChain`, indexed by fuel to make
the continuation-passing recursion total.  When the cursor has passed the
end of the combined middleware list it runs the terminal handler; otherwise
it advances the cursor and runs the middleware's `before` hook (or recurses
directly when the middleware has none), catching an error from that
execution with the same middleware's `onError` hook when present. -/
def step {σ : Type} (mws : List (Middleware σ)) (handler : Handler σ) (req : Request) :
    Nat → Cont σ
  | 0 => fun _ => Res.dv
  | fuel + 1 => fun s =>
    match mws[s.index]? with
    | none => handler req s
    | some middleware =>
      let s1 : CState σ := { s with index := s.index + 1 }
      let attempt : Res (CState σ) (CState σ) :=
        match middleware.before with
        | some b => b req (step mws handler req fuel) s1
        | none => step mws handler req fuel s1
      match attempt with
      | Res.err e serr =>
        match middleware.onError with
        | some oe => oe e req (step mws handler req fuel) serr
        | none => Res.err e serr
      | other => other

/-- Embedding of `Server.executeMiddlewareChain`: concatenate global then route-scoped
middleware, create a fresh response, run the chain from cursor 0, and
return the (mutated) response; an escaping error propagates with the
middleware-private state. -/
def executeMiddlewareChain {σ : Type} (globalMiddlewares : List (Middleware σ))
    (route : Route σ) (req : Request) (fuel : Nat) (ext : σ) :
    Res σ (Response × σ) :=
  let allMiddlewares := globalMiddlewares ++ route.middlewares.getD []
  match step allMiddlewares route.handler req fuel
      { resp := createResponse, index := 0, ext := ext } with
  | Res.ok s => Res.ok (s.resp, s.ext)
  | Res.err e s => Res.err e s.ext
  | Res.dv => Res.dv

/-- The no-op continuation `() => Promise.resolve()` passed to `onError`
hooks during the top-level error sweep. -/
def noopNext {σ : Type} : Cont σ :=
  fun s => Res.ok s

/-- Embedding of `Server.handleError`: iterate the global middleware in registration
order; for each one exposing `onError`, build a fresh response and invoke
the hook with the no-op continuation; the first invocation that settles
without throwing determines the returned response; a throwing invocation
is swallowed and the sweep continues; if none succeeds, return the 500
fallback built by `createErrorResponse`. -/
def handleError {σ : Type} : List (Middleware σ) → ErrorMsg → Request → σ →
    Res σ (Response × σ)
  | [], _, _, ext =>
    (match createErrorResponse 500 "Internal Server Error" with
     | Except.ok r => Res.ok (r, ext)
     | Except.error e2 => Res.err e2 ext)
  | mw :: rest, e, req, ext =>
    match mw.onError with
    | none => handleError rest e req ext
    | some oe =>
      match oe e req noopNext { resp := createResponse, index := 0, ext := ext } with
      | Res.ok st => Res.ok (st.resp, st.ext)
      | Res.err _ st => handleError rest e req st.ext
      | Res.dv => Res.dv

/-! ## Server facade -/

/-- The server state the dispatch core reads: the global middleware list,
the route table, and the `_isRunning` flag (the engine itself is an
external collaborator). -/
structure Server (σ : Type) where
  globalMiddlewares : List (Middleware σ)
  routes : List (Route σ)
  isRunning : Bool

/-- Embedding of `Server.processRequest`: look up the route; build the 404 fallback when
none matches; otherwise run the middleware chain; any error escaping the
`try` block is handed to `handleError`. -/
def processRequest {σ : Type} (srv : Server σ) (req : Request) (fuel : Nat) (ext : σ) :
    Res σ (Response × σ) :=
  let tryResult : Res σ (Response × σ) :=
    match findRoute srv.routes req.method req.path with
    | none =>
      match createErrorResponse 404 "Not Found" with
      | Except.ok r => Res.ok (r, ext)
      | Except.error e => Res.err e ext
    | some route => executeMiddlewareChain srv.globalMiddlewares route req fuel ext
  match tryResult with
  | Res.err e s => handleError srv.globalMiddlewares e req s
  | other => other

/-- Embedding of `Server.use(middleware)`: appends to the global middleware list and
returns the server.  The source performs no `_isRunning` check here. -/
def Server.use {σ : Type} (s : Server σ) (mw : Middleware σ) : Server σ :=
  { s with globalMiddlewares := s.globalMiddlewares ++ [mw] }

/-- A route group (`RouteGroup`): normalized prefix, routes, group
middleware (validation happens at construction, outside the dispatch
core). -/
structure RouteGroup (σ : Type) where
  prefixStr : String
  routes : List (Route σ)
  middlewares : List (Middleware σ)

/-- Embedding of `RouteGroup.getPrefixedRoutes`: each route with the group prefix
prepended to its path and the group middleware prepended to its own. -/
def RouteGroup.getPrefixedRoutes {σ : Type} (g : RouteGroup σ) : List (Route σ) :=
  g.routes.map fun route =>
    { route with
      path := g.prefixStr ++ route.path
      middlewares := some (g.middlewares ++ route.middlewares.getD []) }

/-- The three input shapes `Server.route` accepts. -/
inductive RouteInput (σ : Type) where
  | single (r : Route σ)
  | listOf (rs : List (Route σ))
  | group (g : RouteGroup σ)

/-- The empty-path normalization `route.path === '' → '/'` performed by
`Server.route` for single routes and arrays. -/
def normalizeEmptyPath {σ : Type} (r : Route σ) : Route σ :=
  if r.path = "" then { r with path := "/" } else r

/-- Embedding of `Server.route(routeInput)`: throws when the server is running, before
touching the table; otherwise appends the group's prefixed routes, the
normalized array, or the normalized single route. -/
def Server.route {σ : Type} (s : Server σ) (input : RouteInput σ) :
    Except ErrorMsg (Server σ) :=
  if s.isRunning then Except.error "Cannot add routes after server has started"
  else Except.ok (match input with
    | RouteInput.group g => { s with routes := s.routes ++ g.getPrefixedRoutes }
    | RouteInput.listOf rs => { s with routes := s.routes ++ rs.map normalizeEmptyPath }
    | RouteInput.single r => { s with routes := s.routes ++ [normalizeEmptyPath r] })

/-- Embedding of `Server.start(port)`: throws when already running; otherwise flips
`_isRunning` and awaits `engine.listen`, whose outcome is a parameter here
since the engine is an external collaborator; on listen failure the flag is
reset and the error propagates. -/
def Server.start {σ : Type} (s : Server σ) (listenResult : Except ErrorMsg Unit) :
    Except ErrorMsg (Server σ) :=
  if s.isRunning then Except.error "Server is already running"
  else
    match listenResult with
    | Except.ok _ => Except.ok { s with isRunning := true }
    | Except.error e => Except.error e

/-! ## Specification-side definitions: erasing `after` hooks -/

/-- A middleware with its `after` hook removed; the dispatch path never
reads `after`, which the after-hook inertness theorem makes precise. -/
def eraseAfter {σ : Type} (mw : Middleware σ) : Middleware σ :=
  { mw with after := none }

/-- A route with every route-scoped middleware's `after` hook removed. -/
def eraseAfterRoute {σ : Type} (r : Route σ) : Route σ :=
  { r with middlewares := r.middlewares.map (List.map eraseAfter) }

/-- A server with every `after` hook (global and route-scoped) removed. -/
def eraseAfterServer {σ : Type} (s : Server σ) : Server σ :=
  { s with
    globalMiddlewares := s.globalMiddlewares.map eraseAfter
    routes := s.routes.map eraseAfterRoute }

/-! ## Concrete instances for scenarios and witnesses -/

/-- Observable events of one dispatch, recorded by the tracing middleware
below in the extension state. -/
inductive Event where
  | beforeRun (name : String)
  | onErrorRun (name : String)
  | handlerRun

/-- A terminal handler that records its invocation. -/
def traceHandler : Handler (List Event) :=
  fun _ s => Res.ok { s with ext := s.ext ++ [Event.handlerRun] }

/-- A middleware whose `before` hook records its run and calls the
continuation exactly once. -/
def logMw (name : String) : Middleware (List Event) :=
  { before := some fun _ next s => next { s with ext := s.ext ++ [Event.beforeRun name] } }

/-- A middleware named B whose `before` hook records its run and then
throws, and whose `onError` hook records its run and resumes the chain. -/
def throwingRecoveringMw : Middleware (List Event) :=
  { before := some fun _ _ s => Res.err "boom" { s with ext := s.ext ++ [Event.beforeRun "B"] }
    onError := some fun _ _ next s => next { s with ext := s.ext ++ [Event.onErrorRun "B"] } }

/-- A middleware named B whose `before` hook records its run and then
throws, with no `onError` hook. -/
def throwingBareMw : Middleware (List Event) :=
  { before := some fun _ _ s => Res.err "boom" { s with ext := s.ext ++ [Event.beforeRun "B"] } }

/-- A route with route-scoped middleware C and the tracing handler. -/
def demoRoute : Route (List Event) :=
  { method := Method.GET, path := "/", handler := traceHandler,
    middlewares := some [logMw "C"] }

/-- A request matching `demoRoute`. -/
def demoReq : Request := { method := Method.GET, path := "/" }

/-- A handler over trivial extension state. -/
def unitHandler : Handler Unit := fun _ s => Res.ok s

/-- A registered `GET /` route over trivial extension state. -/
def rootRoute : Route Unit :=
  { method := Method.GET, path := "/", handler := unitHandler }

/-- A second registered route, `GET /about`. -/
def aboutRoute : Route Unit :=
  { method := Method.GET, path := "/about", handler := unitHandler }

/-- A middleware with no hooks at all. -/
def noHookMw : Middleware Unit := {}

/-- A middleware whose `before` hook always throws. -/
def throwingUnitMw : Middleware Unit :=
  { before := some fun _ _ s => Res.err "middleware exploded" s }

/-- A concrete finalized response, used to instantiate the write-once
theorem. -/
def sentResponse : Response :=
  { status? := some 200, headers := [], body := some (JsValue.str "done"),
    sent := true, finished := true }

/-- A running server with no routes and no middleware. -/
def emptyUnitServer : Server Unit :=
  { globalMiddlewares := [], routes := [], isRunning := true }

/-- A request no registered route matches. -/
def missingReq : Request := { method := Method.POST, path := "/missing" }

/-- A running server with one `GET /` route and a global middleware whose
`before` hook would throw if it ever ran. -/
def rootOnlyServer : Server Unit :=
  { globalMiddlewares := [throwingUnitMw], routes := [rootRoute], isRunning := true }

/-- A server that has not been started. -/
def freshServer : Server Unit :=
  { globalMiddlewares := [], routes := [], isRunning := false }

/-- The server obtained from `freshServer` by a successful `start`. -/
def runningServer : Server Unit :=
  { globalMiddlewares := [], routes := [], isRunning := true }

/-! ## Response builder lemmas -/

theorem createErrorResponse_eq (status : Nat) (message : String) :
    createErrorResponse status message = Except.ok
      { status? := some status
        headers := [("content-type", "application/json")]
        body := some (JsValue.obj [("error", JsValue.str message)])
        sent := true
        finished := true } := rfl

theorem setStatus_of_sent (r : Response) (h : r.sent = true) (code : Nat) :
    r.setStatus code = Except.error "Cannot set status after response has been sent" := by
  simp [Response.setStatus, h]

theorem setHeader_of_sent (r : Response) (h : r.sent = true) (name value : String) :
    r.setHeader name value = Except.error "Cannot set headers after response has been sent" := by
  simp [Response.setHeader, h]

theorem send_of_sent (r : Response) (h : r.sent = true) (d : Option JsValue) :
    r.send d = Except.error "Response has already been sent" := by
  simp [Response.send, h]

theorem json_of_sent (r : Response) (h : r.sent = true) (d : JsValue) :
    r.json d = Except.error "Cannot set headers after response has been sent" := by
  unfold Response.json
  rw [setHeader_of_sent r h]

theorem send_ok_iff (r : Response) (d : Option JsValue) (r' : Response) :
    r.send d = Except.ok r' ↔ r.sent = false ∧
      r' = { r with status? := some (r.status?.getD 200), body := d,
                    sent := true, finished := true } := by
  cases h : r.sent <;> simp [Response.send, h, eq_comm]

theorem setHeader_ok_iff (r : Response) (name value : String) (r' : Response) :
    r.setHeader name value = Except.ok r' ↔ r.sent = false ∧
      r' = { r with headers := setHeaderMap r.headers name value } := by
  cases h : r.sent <;> simp [Response.setHeader, h, eq_comm]

theorem sent_of_send_ok {r : Response} {d : Option JsValue} {r' : Response}
    (h : r.send d = Except.ok r') : r'.sent = true ∧ r'.finished = true := by
  rw [send_ok_iff] at h
  rw [h.2]
  exact ⟨rfl, rfl⟩

theorem json_ok_elim {r : Response} {d : JsValue} {r' : Response}
    (h : r.json d = Except.ok r') :
    ∃ r1, r.setHeader "content-type" "application/json" = Except.ok r1 ∧
      r1.send (some d) = Except.ok r' := by
  unfold Response.json at h
  cases h1 : r.setHeader "content-type" "application/json" with
  | error e => rw [h1] at h; cases h
  | ok r1 => rw [h1] at h; exact ⟨r1, rfl, h⟩

theorem sent_of_json_ok {r : Response} {d : JsValue} {r' : Response}
    (h : r.json d = Except.ok r') : r'.sent = true ∧ r'.finished = true := by
  obtain ⟨r1, -, hsend⟩ := json_ok_elim h
  exact sent_of_send_ok hsend

/-- C1: once a response created by the dispatcher's response builder has
been finalized — `sent = true`, which is exactly the state every
successful `send`/`json` leaves behind — each subsequent `setStatus`,
`setHeader`, `send` and `json` call fails with an error; the failed call
yields only the error and no successor state, so the response's status,
headers and body after the failed call are exactly those before it. -/
theorem C1_response_write_once (r : Response) (h : r.sent = true) :
    (∀ code, r.setStatus code =
      Except.error "Cannot set status after response has been sent") ∧
    (∀ name value, r.setHeader name value =
      Except.error "Cannot set headers after response has been sent") ∧
    (∀ d, r.send d = Except.error "Response has already been sent") ∧
    (∀ d, r.json d =
      Except.error "Cannot set headers after response has been sent") ∧
    (∀ code r2, r.setStatus code ≠ Except.ok r2) ∧
    (∀ name value r2, r.setHeader name value ≠ Except.ok r2) ∧
    (∀ d r2, r.send d ≠ Except.ok r2) ∧
    (∀ d r2, r.json d ≠ Except.ok r2) ∧
    (∀ (r0 : Response) (d : Option JsValue) (r1 : Response),
      r0.send d = Except.ok r1 → r1.sent = true ∧ r1.finished = true) ∧
    (∀ (r0 : Response) (d : JsValue) (r1 : Response),
      r0.json d = Except.ok r1 → r1.sent = true ∧ r1.finished = true) := by
  refine ⟨setStatus_of_sent r h, setHeader_of_sent r h, send_of_sent r h,
    json_of_sent r h, ?_, ?_, ?_, ?_,
    fun _ _ _ hs => sent_of_send_ok hs, fun _ _ _ hj => sent_of_json_ok hj⟩
  · intro code r2; rw [setStatus_of_sent r h]; simp
  · intro name value r2; rw [setHeader_of_sent r h]; simp
  · intro d r2; rw [send_of_sent r h]; simp
  · intro d r2; rw [json_of_sent r h]; simp

/-- C1 witness: the write-once theorem applied to a concrete finalized
response. -/
theorem C1_response_write_once_witness :
    sentResponse.setStatus 404 =
      Except.error "Cannot set status after response has been sent" :=
  (C1_response_write_once sentResponse rfl).1 404

/-- C8: for a response on which `setStatus` was never called (the private
status variable is still unset, as in a fresh `createResponse`), reading
`status` returns 200 already before any send, and still after a send or
json completes. -/
theorem C8_default_status_200 (r : Response) (h : r.status? = none) :
    r.status = 200 ∧
    createResponse.status? = none ∧
    createResponse.status = 200 ∧
    (∀ d r', r.send d = Except.ok r' → r'.status = 200 ∧ r'.status? = some 200) ∧
    (∀ d r', r.json d = Except.ok r' → r'.status = 200 ∧ r'.status? = some 200) := by
  refine ⟨by simp [Response.status, h], rfl, rfl, ?_, ?_⟩
  · intro d r' hs
    rw [send_ok_iff] at hs
    rw [hs.2]
    simp [Response.status, h]
  · intro d r' hj
    obtain ⟨r1, hsh, hsend⟩ := json_ok_elim hj
    rw [setHeader_ok_iff] at hsh
    rw [send_ok_iff] at hsend
    rw [hsend.2, hsh.2]
    simp [Response.status, h]

/-- C8 witness: the default-status theorem applied to the fresh response of
`createResponse`. -/
theorem C8_default_status_200_witness : createResponse.status = 200 :=
  (C8_default_status_200 createResponse rfl).1

/-- C10: every 404/500 fallback response built by `createErrorResponse` is
returned already finalized: `sent` and `finished` are true, the header map
holds `content-type: application/json`, and every subsequent `setStatus`,
`setHeader`, `send` or `json` call on it fails. -/
theorem C10_error_response_finalized (status : Nat) (message : String) :
    ∃ r, createErrorResponse status message = Except.ok r ∧
      r.sent = true ∧ r.finished = true ∧
      r.headers.lookup "content-type" = some "application/json" ∧
      (∀ code, r.setStatus code =
        Except.error "Cannot set status after response has been sent") ∧
      (∀ name value, r.setHeader name value =
        Except.error "Cannot set headers after response has been sent") ∧
      (∀ d, r.send d = Except.error "Response has already been sent") ∧
      (∀ d, r.json d =
        Except.error "Cannot set headers after response has been sent") := by
  refine ⟨_, createErrorResponse_eq status message, rfl, rfl, rfl,
    setStatus_of_sent _ rfl, setHeader_of_sent _ rfl, send_of_sent _ rfl,
    json_of_sent _ rfl⟩

/-! ## Route table lemmas -/

/-- C7: `findRoute` returns the first registered route with exactly equal
method and string-equal path (no normalization, no parameters), and `none`
(the not-found sentinel, `undefined` in the source) when no route matches
exactly. -/
theorem C7_findRoute_first_exact_match {σ : Type} (routes : List (Route σ))
    (method : Method) (path : String) :
    (∀ r, findRoute routes method path = some r →
      r.method = method ∧ r.path = path ∧
      ∃ pre post, routes = pre ++ r :: post ∧
        ∀ r' ∈ pre, ¬(r'.method = method ∧ r'.path = path)) ∧
    (findRoute routes method path = none ↔
      ∀ r ∈ routes, ¬(r.method = method ∧ r.path = path)) := by
  constructor
  · intro r hr
    unfold findRoute at hr
    rw [List.find?_eq_some] at hr
    obtain ⟨hp, pre, post, heq, hpre⟩ := hr
    rw [Bool.and_eq_true, decide_eq_true_eq] at hp
    refine ⟨hp.1, beq_iff_eq.mp hp.2, pre, post, heq, ?_⟩
    intro r' hr' hcontra
    have hfalse := hpre r' hr'
    have htrue : (decide (r'.method = method) && pathMatches r'.path path) = true := by
      rw [Bool.and_eq_true, decide_eq_true_eq]
      exact ⟨hcontra.1, beq_iff_eq.mpr hcontra.2⟩
    rw [htrue] at hfalse
    cases hfalse
  · unfold findRoute
    rw [List.find?_eq_none]
    constructor
    · intro hnone r hr hcontra
      apply hnone r hr
      rw [Bool.and_eq_true, decide_eq_true_eq]
      exact ⟨hcontra.1, beq_iff_eq.mpr hcontra.2⟩
    · intro hno r hr hptrue
      rw [Bool.and_eq_true, decide_eq_true_eq] at hptrue
      exact hno r hr ⟨hptrue.1, beq_iff_eq.mp hptrue.2⟩

/-- C7 witness: the first-match theorem applied to a concrete two-route
table whose first route matches `GET /`. -/
theorem C7_findRoute_witness :
    rootRoute.method = Method.GET ∧ rootRoute.path = "/" ∧
    ∃ pre post, [rootRoute, aboutRoute] = pre ++ rootRoute :: post ∧
      ∀ r' ∈ pre, ¬(r'.method = Method.GET ∧ r'.path = "/") :=
  (C7_findRoute_first_exact_match [rootRoute, aboutRoute] Method.GET "/").1 rootRoute rfl

/-! ## Top-level error sweep lemmas -/

theorem handleError_ne_err {σ : Type} (gmws : List (Middleware σ)) (e : ErrorMsg)
    (req : Request) :
    ∀ (ext : σ) (e' : ErrorMsg) (st : σ), handleError gmws e req ext ≠ Res.err e' st := by
  induction gmws with
  | nil => intro ext e' st h; cases h
  | cons mw rest ih =>
    intro ext e' st h
    cases hoe : mw.onError with
    | none =>
      simp only [handleError, hoe] at h
      exact ih ext e' st h
    | some oe =>
      simp only [handleError, hoe] at h
      cases hres : oe e req noopNext { resp := createResponse, index := 0, ext := ext } with
      | ok st1 => simp only [hres] at h; cases h
      | err e1 st1 => simp only [hres] at h; exact ih st1.ext e' st h
      | dv => simp only [hres] at h; cases h

theorem handleError_no_onError {σ : Type} (e : ErrorMsg) (req : Request) :
    ∀ gmws : List (Middleware σ), (∀ mw ∈ gmws, mw.onError = none) →
    ∀ ext, handleError gmws e req ext = Res.ok (internalErrorResponse, ext) := by
  intro gmws
  induction gmws with
  | nil => intro _ ext; rfl
  | cons mw rest ih =>
    intro h ext
    simp only [handleError, h mw (List.mem_cons_self mw rest)]
    exact ih (fun mw' hm => h mw' (List.mem_cons_of_mem mw hm)) ext

theorem handleError_all_onError_err {σ : Type} (e : ErrorMsg) (req : Request) :
    ∀ gmws : List (Middleware σ),
      (∀ mw ∈ gmws, ∀ oe, mw.onError = some oe →
        ∀ st0, ∃ e' st', oe e req noopNext st0 = Res.err e' st') →
      ∀ ext, ∃ ext', handleError gmws e req ext = Res.ok (internalErrorResponse, ext') := by
  intro gmws
  induction gmws with
  | nil => intro _ ext; exact ⟨ext, rfl⟩
  | cons mw rest ih =>
    intro h ext
    cases hoe : mw.onError with
    | none =>
      simp only [handleError, hoe]
      exact ih (fun mw' hm => h mw' (List.mem_cons_of_mem mw hm)) ext
    | some oe =>
      obtain ⟨e', st', herr⟩ := h mw (List.mem_cons_self mw rest) oe hoe
        { resp := createResponse, index := 0, ext := ext }
      simp only [handleError, hoe, herr]
      exact ih (fun mw' hm => h mw' (List.mem_cons_of_mem mw hm)) st'.ext

/-! ## Dispatcher lemmas -/

theorem processRequest_of_no_route {σ : Type} (srv : Server σ) (req : Request)
    (fuel : Nat) (ext : σ) (h : findRoute srv.routes req.method req.path = none) :
    processRequest srv req fuel ext = Res.ok (notFoundResponse, ext) := by
  unfold processRequest
  rw [h]
  rfl

theorem processRequest_of_route {σ : Type} (srv : Server σ) (req : Request)
    (fuel : Nat) (ext : σ) (route : Route σ)
    (hf : findRoute srv.routes req.method req.path = some route) :
    processRequest srv req fuel ext =
      (match executeMiddlewareChain srv.globalMiddlewares route req fuel ext with
       | Res.err e s => handleError srv.globalMiddlewares e req s
       | other => other) := by
  unfold processRequest
  rw [hf]

/-- C2: for every request and every behaviour of the registered middleware
and handlers — the hooks are arbitrary functions, so this includes any of
them throwing — `processRequest` never rejects; an unmatched route yields
the 404 fallback; and whenever an error escapes the chain and escapes
every `onError` hook of the top-level sweep — whether no global middleware
defines `onError`, or every defined `onError` itself throws at whatever
state it is invoked on — the result is the 500 fallback. -/
theorem C2_dispatcher_never_raises {σ : Type} (srv : Server σ) (req : Request)
    (fuel : Nat) (ext : σ) :
    (∀ e st, processRequest srv req fuel ext ≠ Res.err e st) ∧
    (findRoute srv.routes req.method req.path = none →
      processRequest srv req fuel ext = Res.ok (notFoundResponse, ext) ∧
      notFoundResponse.status = 404) ∧
    (∀ route e st, findRoute srv.routes req.method req.path = some route →
      executeMiddlewareChain srv.globalMiddlewares route req fuel ext = Res.err e st →
      (∀ mw ∈ srv.globalMiddlewares, mw.onError = none) →
      processRequest srv req fuel ext = Res.ok (internalErrorResponse, st) ∧
      internalErrorResponse.status = 500) ∧
    (∀ route e st, findRoute srv.routes req.method req.path = some route →
      executeMiddlewareChain srv.globalMiddlewares route req fuel ext = Res.err e st →
      (∀ mw ∈ srv.globalMiddlewares, ∀ oe, mw.onError = some oe →
        ∀ st0, ∃ e' st', oe e req noopNext st0 = Res.err e' st') →
      ∃ st'', processRequest srv req fuel ext = Res.ok (internalErrorResponse, st'') ∧
        internalErrorResponse.status = 500) := by
  refine ⟨?_, fun h => ⟨processRequest_of_no_route srv req fuel ext h, rfl⟩, ?_, ?_⟩
  · intro e st hcontra
    cases hf : findRoute srv.routes req.method req.path with
    | none =>
      rw [processRequest_of_no_route srv req fuel ext hf] at hcontra
      cases hcontra
    | some route =>
      rw [processRequest_of_route srv req fuel ext route hf] at hcontra
      cases hc : executeMiddlewareChain srv.globalMiddlewares route req fuel ext with
      | ok p => rw [hc] at hcontra; cases hcontra
      | dv => rw [hc] at hcontra; cases hcontra
      | err e0 st0 =>
        rw [hc] at hcontra
        exact handleError_ne_err srv.globalMiddlewares e0 req st0 e st hcontra
  · intro route e st hf hc hnone
    rw [processRequest_of_route srv req fuel ext route hf, hc]
    exact ⟨handleError_no_onError e req srv.globalMiddlewares hnone st, rfl⟩
  · intro route e st hf hc hallerr
    rw [processRequest_of_route srv req fuel ext route hf, hc]
    obtain ⟨st'', h500⟩ :=
      handleError_all_onError_err e req srv.globalMiddlewares hallerr st
    exact ⟨st'', h500, rfl⟩

/-- C2 witness: the dispatcher contract applied to a concrete running
server with an empty route table. -/
theorem C2_dispatcher_never_raises_witness :
    processRequest emptyUnitServer missingReq 5 () = Res.ok (notFoundResponse, ()) ∧
    notFoundResponse.status = 404 :=
  (C2_dispatcher_never_raises emptyUnitServer missingReq 5 ()).2.1 rfl

/-- C6: a request whose method and path match no registered route yields
the finalized 404 response with body `\x7b error: "Not Found" \x7d`, the
extension state is returned untouched, and the result is the same for
every server sharing the route table — whatever its middleware and
handlers — so no hook and no handler is invoked. -/
theorem C6_unmatched_route_404 {σ : Type} (srv : Server σ) (req : Request)
    (fuel : Nat) (ext : σ) (h : findRoute srv.routes req.method req.path = none) :
    processRequest srv req fuel ext = Res.ok (notFoundResponse, ext) ∧
    notFoundResponse.status = 404 ∧
    notFoundResponse.body = some (JsValue.obj [("error", JsValue.str "Not Found")]) ∧
    notFoundResponse.sent = true ∧
    (∀ srv2 : Server σ, srv2.routes = srv.routes →
      processRequest srv2 req fuel ext = Res.ok (notFoundResponse, ext)) := by
  refine ⟨processRequest_of_no_route srv req fuel ext h, rfl, rfl, rfl, ?_⟩
  intro srv2 h2
  exact processRequest_of_no_route srv2 req fuel ext (by rw [h2]; exact h)

/-- C6 witness: dispatching `POST /missing` against a server whose only
route is `GET /` and whose global middleware would throw if it ran. -/
theorem C6_unmatched_route_404_witness :
    processRequest rootOnlyServer missingReq 5 () = Res.ok (notFoundResponse, ()) :=
  (C6_unmatched_route_404 rootOnlyServer missingReq 5 () rfl).1

/-- C5: the top-level error sweep: middleware without `onError` are
skipped; an `onError` invocation — on a fresh response, with the no-op
continuation — that settles without throwing determines the returned
response; a throwing invocation is swallowed and the sweep continues; and
when no middleware recovers (none defines `onError`, or every defined
`onError` throws), the result is the finalized 500 response with body
`\x7b error: "Internal Server Error" \x7d`. -/
theorem C5_top_level_error_sweep {σ : Type} (e : ErrorMsg) (req : Request) :
    (∀ ext : σ, handleError [] e req ext = Res.ok (internalErrorResponse, ext)) ∧
    (∀ (mw : Middleware σ) rest ext, mw.onError = none →
      handleError (mw :: rest) e req ext = handleError rest e req ext) ∧
    (∀ (mw : Middleware σ) rest ext oe st, mw.onError = some oe →
      oe e req noopNext { resp := createResponse, index := 0, ext := ext } = Res.ok st →
      handleError (mw :: rest) e req ext = Res.ok (st.resp, st.ext)) ∧
    (∀ (mw : Middleware σ) rest ext oe e' st, mw.onError = some oe →
      oe e req noopNext { resp := createResponse, index := 0, ext := ext } = Res.err e' st →
      handleError (mw :: rest) e req ext = handleError rest e req st.ext) ∧
    (∀ gmws : List (Middleware σ), (∀ mw ∈ gmws, mw.onError = none) →
      ∀ ext, handleError gmws e req ext = Res.ok (internalErrorResponse, ext)) ∧
    (∀ gmws : List (Middleware σ),
      (∀ mw ∈ gmws, ∀ oe, mw.onError = some oe →
        ∀ st0, ∃ e' st', oe e req noopNext st0 = Res.err e' st') →
      ∀ ext, ∃ ext', handleError gmws e req ext = Res.ok (internalErrorResponse, ext')) := by
  refine ⟨fun ext => rfl, ?_, ?_, ?_, handleError_no_onError e req,
    handleError_all_onError_err e req⟩
  · intro mw rest ext hoe
    simp only [handleError, hoe]
  · intro mw rest ext oe st hoe hok
    simp only [handleError, hoe, hok]
  · intro mw rest ext oe e' st hoe herr
    simp only [handleError, hoe, herr]

/-- C5 witness: a middleware without `onError` is skipped by the sweep. -/
theorem C5_top_level_error_sweep_witness :
    handleError [noHookMw] "boom" missingReq () = handleError [] "boom" missingReq () :=
  (C5_top_level_error_sweep "boom" missingReq).2.1 noHookMw [] () rfl

/-! ## Middleware ordering scenario -/

/-- C3: with global middleware [A, B] and route middleware [C], the
`before` hooks run in order A, B, C and then the handler; when B's
`before` throws and B defines `onError`, B's `onError` runs before any of
C's hooks; when B's `before` throws and B has no `onError`, neither C's
`before` hook nor the handler runs and the error surfaces to the
dispatcher. -/
theorem C3_middleware_ordering :
    executeMiddlewareChain [logMw "A", logMw "B"] demoRoute demoReq 10 [] =
      Res.ok (createResponse,
        [Event.beforeRun "A", Event.beforeRun "B", Event.beforeRun "C",
         Event.handlerRun]) ∧
    executeMiddlewareChain [logMw "A", throwingRecoveringMw] demoRoute demoReq 10 [] =
      Res.ok (createResponse,
        [Event.beforeRun "A", Event.beforeRun "B", Event.onErrorRun "B",
         Event.beforeRun "C", Event.handlerRun]) ∧
    executeMiddlewareChain [logMw "A", throwingBareMw] demoRoute demoReq 10 [] =
      Res.err "boom" [Event.beforeRun "A", Event.beforeRun "B"] :=
  ⟨rfl, rfl, rfl⟩

/-! ## Registration after start -/

/-- C4 counterexample: on a server whose `start` has completed
(`isRunning = true`), `use` does not fail — it has no running-state guard
and appends the middleware to the global list, so the claim that `use`
after start fails leaving the list unchanged is false. -/
theorem C4_use_unguarded_counterexample :
    freshServer.start (Except.ok ()) = Except.ok runningServer ∧
    runningServer.isRunning = true ∧
    runningServer.use noHookMw =
      { globalMiddlewares := [noHookMw], routes := [], isRunning := true } ∧
    (runningServer.use noHookMw).globalMiddlewares ≠ runningServer.globalMiddlewares :=
  ⟨rfl, rfl, rfl, List.cons_ne_nil noHookMw []⟩

/-- C4 amended: on a server whose `start` has completed, `route` fails
with an error and the route table is unchanged (no successful registration
exists); `use`, however, performs no running-state check: it succeeds and
appends the middleware to the global list even after start. -/
theorem C4_route_guarded_use_unguarded {σ : Type} (s : Server σ)
    (h : s.isRunning = true) :
    (∀ input, s.route input =
      Except.error "Cannot add routes after server has started") ∧
    (∀ (s2 : Server σ) input, s.route input ≠ Except.ok s2) ∧
    (∀ mw, (s.use mw).globalMiddlewares = s.globalMiddlewares ++ [mw] ∧
      (s.use mw).routes = s.routes ∧ (s.use mw).isRunning = s.isRunning) := by
  refine ⟨?_, ?_, fun mw => ⟨rfl, rfl, rfl⟩⟩
  · intro input
    simp [Server.route, h]
  · intro s2 input
    simp [Server.route, h]

/-- C4 witness: the guard theorem applied to a concrete started server. -/
theorem C4_route_guarded_witness :
    runningServer.route (RouteInput.single rootRoute) =
      Except.error "Cannot add routes after server has started" :=
  (C4_route_guarded_use_unguarded runningServer rfl).1 (RouteInput.single rootRoute)

/-! ## After hooks are inert -/

theorem eraseAfter_before {σ : Type} (mw : Middleware σ) :
    (eraseAfter mw).before = mw.before := rfl

theorem eraseAfter_onError {σ : Type} (mw : Middleware σ) :
    (eraseAfter mw).onError = mw.onError := rfl

theorem step_eraseAfter {σ : Type} (mws : List (Middleware σ)) (handler : Handler σ)
    (req : Request) :
    ∀ fuel, step (mws.map eraseAfter) handler req fuel = step mws handler req fuel := by
  intro fuel
  induction fuel with
  | zero => rfl
  | succ n ih =>
    funext s
    simp only [step, List.getElem?_map, ih]
    cases mws[s.index]? with
    | none => rfl
    | some mw => rfl

theorem middlewares_getD_eraseAfterRoute {σ : Type} (r : Route σ) :
    (eraseAfterRoute r).middlewares.getD [] = (r.middlewares.getD []).map eraseAfter := by
  cases hm : r.middlewares with
  | none => simp [eraseAfterRoute, hm]
  | some l => simp [eraseAfterRoute, hm]

theorem executeMiddlewareChain_eraseAfter {σ : Type} (g : List (Middleware σ))
    (route : Route σ) (req : Request) (fuel : Nat) (ext : σ) :
    executeMiddlewareChain (g.map eraseAfter) (eraseAfterRoute route) req fuel ext =
      executeMiddlewareChain g route req fuel ext := by
  unfold executeMiddlewareChain
  rw [middlewares_getD_eraseAfterRoute, ← List.map_append]
  rw [show (eraseAfterRoute route).handler = route.handler from rfl]
  simp only [step_eraseAfter]

theorem handleError_eraseAfter {σ : Type} (e : ErrorMsg) (req : Request) :
    ∀ (gmws : List (Middleware σ)) (ext : σ),
      handleError (gmws.map eraseAfter) e req ext = handleError gmws e req ext := by
  intro gmws
  induction gmws with
  | nil => intro ext; rfl
  | cons mw rest ih =>
    intro ext
    simp only [List.map_cons, handleError, eraseAfter_onError]
    cases hoe : mw.onError with
    | none =>
      simp only [hoe]
      exact ih ext
    | some oe =>
      simp only [hoe]
      cases hres : oe e req noopNext { resp := createResponse, index := 0, ext := ext } with
      | ok st => simp only [hres]
      | err e1 st => simp only [hres]; exact ih st.ext
      | dv => simp only [hres]

theorem findRoute_map_eraseAfterRoute {σ : Type} (routes : List (Route σ))
    (method : Method) (path : String) :
    findRoute (routes.map eraseAfterRoute) method path =
      Option.map eraseAfterRoute (findRoute routes method path) := by
  induction routes with
  | nil => rfl
  | cons r rest ih =>
    unfold findRoute at ih ⊢
    rw [List.map_cons]
    by_cases hp : (decide (r.method = method) && pathMatches r.path path) = true
    · rw [@List.find?_cons_of_pos (Route σ)
        (fun route => decide (route.method = method) && pathMatches route.path path)
        (eraseAfterRoute r) (List.map eraseAfterRoute rest) hp,
        @List.find?_cons_of_pos (Route σ)
        (fun route => decide (route.method = method) && pathMatches route.path path)
        r rest hp]
      rfl
    · rw [@List.find?_cons_of_neg (Route σ)
        (fun route => decide (route.method = method) && pathMatches route.path path)
        (eraseAfterRoute r) (List.map eraseAfterRoute rest) hp,
        @List.find?_cons_of_neg (Route σ)
        (fun route => decide (route.method = method) && pathMatches route.path path)
        r rest hp]
      exact ih

/-- C9: no `after` hook is ever invoked by the dispatch path: for every
server, request, fuel bound and extension state, erasing every `after`
hook (global and route-scoped) leaves the result of `processRequest`
unchanged, whatever the hooks would have done. -/
theorem C9_after_hooks_never_invoked {σ : Type} (srv : Server σ) (req : Request)
    (fuel : Nat) (ext : σ) :
    processRequest (eraseAfterServer srv) req fuel ext =
      processRequest srv req fuel ext := by
  unfold processRequest
  rw [show (eraseAfterServer srv).routes = srv.routes.map eraseAfterRoute from rfl]
  rw [show (eraseAfterServer srv).globalMiddlewares =
    srv.globalMiddlewares.map eraseAfter from rfl]
  rw [findRoute_map_eraseAfterRoute]
  cases hf : findRoute srv.routes req.method req.path with
  | none => rfl
  | some route =>
    simp only [Option.map_some']
    rw [executeMiddlewareChain_eraseAfter]
    cases hc : executeMiddlewareChain srv.globalMiddlewares route req fuel ext with
    | ok p => rfl
    | err e st => simp only [handleError_eraseAfter]
    | dv => rfl

end Nuska
